import Mathlib

/-!
# Verification of the verification/diagnosis pipeline

Shallow embedding of the core of the repository (the `build-logger` script and
the `analyze-logs` script) in Lean 4, together with theorems settling the
specification claims.

Modelling conventions, used consistently below:

* JavaScript strings are modelled as `Str := List Char`.  String literals of the
  embedding are written `str "..."` which converts a Lean string literal to its
  character list.
* `String.prototype.includes` is `containsL`, `split('\n')` is `linesL`,
  `join('\n')` is `joinNl`, `trim()` is `trimL`, `toLowerCase()` is `lowerL`.
  `toLowerCase` is modelled on the ASCII range only: every needle ever compared
  case-insensitively by the program is pure ASCII, and JavaScript lowercasing
  maps the non-ASCII characters occurring in the reports (accented letters,
  emoji) to non-ASCII characters, which can never match an ASCII needle either
  way, so the modelling is adequate for every comparison the code performs.
* `trim` uses the ASCII whitespace characters; all report text is ASCII plus
  emoji/accented letters, none of which are JavaScript whitespace.
* JavaScript numbers holding exit codes are modelled as `Int` (the sentinel for
  "could not start" is `-1`); counters are `Nat`.
* Absent object fields read as falsy booleans (`skipped`, `filtered`) are
  modelled as `false`.
* Dates, `process.version`, `process.platform`, `toLocaleString('pt-BR')` and
  the elapsed-time counter are impure inputs; they are threaded through as
  explicit parameters (`EnvInfo`).
-/

/-- JavaScript strings, modelled as lists of characters. -/
abbrev Str : Type := List Char

/-- Conversion from Lean string literals into the model's string type. -/
def str (s : String) : Str := s.data

/-- `startsWithL s n = true` iff `n` is a prefix of `s` (cf. `String.prototype.startsWith`). -/
def startsWithL : Str → Str → Bool
  | _, [] => true
  | [], _ :: _ => false
  | a :: s, b :: n => a == b && startsWithL s n

/-- `containsL s n = true` iff `n` occurs as a contiguous substring of `s`
(the model of `String.prototype.includes`). -/
def containsL : Str → Str → Bool
  | [], n => n.isEmpty
  | a :: s, n => startsWithL (a :: s) n || containsL s n

/-- ASCII whitespace, the subset of JavaScript's `\s` relevant to the
program's (ASCII) texts. -/
def isWs (c : Char) : Bool :=
  c == ' ' || c == '\t' || c == '\n' || c == '\r' || c == '\x0b' || c == '\x0c'

/-- Model of `String.prototype.trim`. -/
def trimL (s : Str) : Str :=
  ((s.dropWhile isWs).reverse.dropWhile isWs).reverse

/-- ASCII lowercasing of one character (see the modelling note on
`toLowerCase` in the file header). -/
def lowerC (c : Char) : Char :=
  if 65 ≤ c.toNat && c.toNat ≤ 90 then Char.ofNat (c.toNat + 32) else c

/-- Model of `String.prototype.toLowerCase` (ASCII range). -/
def lowerL (s : Str) : Str := s.map lowerC

/-- Model of `String.prototype.split(c)` for a single-character separator. -/
def splitOnChar (c : Char) : Str → List Str
  | [] => [[]]
  | a :: as =>
    let r := splitOnChar c as
    if a == c then [] :: r
    else
      match r with
      | [] => [[a]]
      | h :: t => (a :: h) :: t

/-- Model of `text.split('\n')`. -/
def linesL (s : Str) : List Str := splitOnChar '\n' s

/-- Model of `Array.prototype.join('\n')`. -/
def joinNl : List Str → Str
  | [] => []
  | [s] => s
  | s :: r :: t => s ++ '\n' :: joinNl (r :: t)

/-- Model of `Array.prototype.join(sep)` for an arbitrary separator. -/
def joinSep (sep : Str) : List Str → Str
  | [] => []
  | [s] => s
  | s :: r :: t => s ++ sep ++ joinSep sep (r :: t)

/-- Model of `String.prototype.endsWith`. -/
def endsWithL (s n : Str) : Bool := startsWithL s.reverse n.reverse

/-- Decimal digit as a character. -/
def digitChar (n : Nat) : Char := Char.ofNat (48 + n % 10)

/-- Decimal rendering of a natural number (fuel-based so that it reduces in
the kernel). -/
def natToStrAux : Nat → Nat → Str
  | 0, _ => []
  | fuel + 1, n =>
    if n < 10 then [digitChar n] else natToStrAux fuel (n / 10) ++ [digitChar (n % 10)]

/-- Decimal rendering of a natural number, as JavaScript prints it. -/
def natToStr (n : Nat) : Str := natToStrAux (n + 1) n

/-- Decimal rendering of an integer, as JavaScript prints an integral number. -/
def intToStr (i : Int) : Str :=
  if i < 0 then '-' :: natToStr i.natAbs else natToStr i.natAbs

/-- One execution outcome — the `CheckResult` record constructed by
`runCommand` in the build-logger script.  Absent JavaScript fields
(`skipped`, `filtered`) are modelled as `false`. -/
structure CheckResult where
  description : Str
  command : Str
  code : Int
  success : Bool
  stdout : Str
  stderr : Str
  output : Str
  timestamp : Str
  skipped : Bool
  filtered : Bool
deriving DecidableEq

/-- CommandExecutor, `close`-event branch of `runCommand`: the process
started and exited with `code`; `rawStdout`/`rawStderr` are the accumulated
raw streams. -/
def runCommandClose (cmd : Str) (args : List Str) (description : Str)
    (code : Int) (rawStdout rawStderr : Str) (timestamp : Str) : CheckResult :=
  { command := cmd ++ str " " ++ joinSep (str " ") args
    description := description
    code := code
    success := code == 0
    stdout := trimL rawStdout
    stderr := trimL rawStderr
    output := trimL (rawStdout ++ rawStderr)
    timestamp := timestamp
    skipped := false
    filtered := false }

/-- CommandExecutor, `error`-event branch of `runCommand`: the executable
could not be started; `errMessage` is `error.message`. -/
def runCommandError (cmd : Str) (args : List Str) (description : Str)
    (errMessage : Str) (timestamp : Str) : CheckResult :=
  { command := cmd ++ str " " ++ joinSep (str " ") args
    description := description
    code := -1
    success := false
    stdout := []
    stderr := errMessage
    output := errMessage
    timestamp := timestamp
    skipped := true
    filtered := false }

/-- The CheckResult invariant stated by the data model:
`skipped ⇒ ¬success` and `filtered ⇒ ¬skipped`. -/
def resultInv (r : CheckResult) : Prop :=
  (r.skipped = true → r.success = false) ∧ (r.filtered = true → r.skipped = false)

/-- The noise allowlist of `filterLogScriptErrors`: the diagnostic tool's own
source files. -/
def logScriptFiles : List Str :=
  [str "build-logger.js", str "analyze-logs.js", str "setup-ignore-scripts.js"]

/-- Per-line reference test of `filterLogScriptLines`: the line contains the
file name plainly, with `./` or `/` prefix, or wrapped in quotes. -/
def lineHasScriptRef (line : Str) : Bool :=
  logScriptFiles.any fun scriptFile =>
    containsL line scriptFile ||
    containsL line (str "./" ++ scriptFile) ||
    containsL line (str "/" ++ scriptFile) ||
    containsL line ('"' :: scriptFile ++ ['"']) ||
    containsL line ('\'' :: scriptFile ++ ['\''])

/-- Model of `filterLogScriptLines(text, logScriptFiles)`: drop every line
referencing an allowlisted file and re-join with newlines; the empty string
is returned unchanged (`if (!text) return ''`). -/
def filterLogScriptLines (text : Str) : Str :=
  if text.isEmpty then []
  else joinNl ((linesL text).filter fun line => !lineHasScriptRef line)

/-- The fixed error-indicator substrings of `checkForRemainingErrors`. -/
def errorIndicators : List Str :=
  [str "error", str "Error:", str "TypeError:", str "SyntaxError:", str "ReferenceError:",
   str "warning", str "Warning:", str "fail", str "failed", str "FAIL", str "FAILED"]

/-- Model of `checkForRemainingErrors(output, stdout, stderr)`. -/
def checkForRemainingErrors (outputT stdoutT stderrT : Str) : Bool :=
  let combinedText := trimL (outputT ++ stdoutT ++ stderrT)
  if combinedText.isEmpty then false
  else
    let lowerText := lowerL combinedText
    errorIndicators.any fun indicator => containsL lowerText (lowerL indicator)

/-- The allowlist trigger inside `filterLogScriptErrors`: some allowlisted
file name occurs in `output`, `stdout` or `stderr`. -/
def hasLogScriptError (result : CheckResult) : Bool :=
  logScriptFiles.any fun scriptFile =>
    containsL result.output scriptFile || containsL result.stdout scriptFile ||
    containsL result.stderr scriptFile

/-- The per-element transformation applied by `filterLogScriptErrors`'s
`map` callback. -/
def filterStep (result : CheckResult) : CheckResult :=
  if result.skipped || result.success then result
  else if hasLogScriptError result then
    let filteredOutput := filterLogScriptLines result.output
    let filteredStdout := filterLogScriptLines result.stdout
    let filteredStderr := filterLogScriptLines result.stderr
    if !(checkForRemainingErrors filteredOutput filteredStdout filteredStderr) then
      { result with
        success := true
        code := 0
        output := []
        stdout := []
        stderr := []
        filtered := true }
    else
      { result with
        output := filteredOutput
        stdout := filteredStdout
        stderr := filteredStderr
        filtered := true }
  else result

/-- Model of `filterLogScriptErrors(testResults)` (the NoiseFilter). -/
def filterLogScriptErrors (testResults : List CheckResult) : List CheckResult :=
  testResults.map filterStep

/-- One prior report file on disk: name, modification time, and its content
(`none` models a file whose `readFileSync` throws — the surrounding
`try`/`catch` then aborts the whole scan with `false`). -/
structure LogFile where
  name : Str
  mtime : Nat
  content : Option Str
deriving DecidableEq

/-- Stable insertion into a list sorted by decreasing `mtime` (model of the
`sort((a, b) => bTime - aTime)` call). -/
def insertByMtimeDesc (f : LogFile) : List LogFile → List LogFile
  | [] => [f]
  | g :: gs => if g.mtime < f.mtime then f :: g :: gs else g :: insertByMtimeDesc f gs

/-- The `.log` files of the history directory sorted newest-first. -/
def sortByMtimeDesc (files : List LogFile) : List LogFile :=
  files.foldr insertByMtimeDesc []

/-- The up-to-3 most-recently-modified prior `.log` report files. -/
def recentThree (files : List LogFile) : List LogFile :=
  (sortByMtimeDesc (files.filter fun f => endsWithL f.name (str ".log"))).take 3

/-- `testResults.some(result => !result.success && !result.skipped)`. -/
def hasFailedTests (testResults : List CheckResult) : Bool :=
  testResults.any fun r => !r.success && !r.skipped

/-- The descriptions of the current real failures. -/
def currentErrors (testResults : List CheckResult) : List Str :=
  (testResults.filter fun r => !r.success && !r.skipped).map fun r => r.description

/-- The per-log-file body of `checkIfErrorIsRecurrent`'s loop. -/
def recurrentInLog (testResults : List CheckResult) (logContent : Str) : Bool :=
  hasFailedTests testResults && containsL logContent (str "❌ Status: ERRO") &&
    ((currentErrors testResults).any fun errorType =>
      containsL logContent errorType && containsL logContent (str "FALHOU"))

/-- The loop over the recent log files; an unreadable file (content `none`)
raises, and the `catch` returns `false` for the whole call. -/
def recurrenceLoop (testResults : List CheckResult) : List LogFile → Bool
  | [] => false
  | f :: rest =>
    match f.content with
    | none => false
    | some logContent =>
      if recurrentInLog testResults logContent then true
      else recurrenceLoop testResults rest

/-- Model of `checkIfErrorIsRecurrent(testResults, logsDir)`; `none` models
a history directory that does not exist (`fs.existsSync` false). -/
def checkIfErrorIsRecurrent (testResults : List CheckResult)
    (logsDir : Option (List LogFile)) : Bool :=
  match logsDir with
  | none => false
  | some files => recurrenceLoop testResults (recentThree files)

/-- The impure inputs of `generateComprehensiveLog`, threaded explicitly:
runtime version, platform, Prisma probes, wall-clock timestamp, elapsed
seconds and the `toLocaleString('pt-BR')` formatter. -/
structure EnvInfo where
  nodeVersion : Str
  platform : Str
  prismaInstalled : Bool
  prismaSchemaExists : Bool
  timestamp : Str
  durationSecs : Nat
  fmtLocale : Str → Str

/-- `testResults.every(result => result.success || result.skipped)` — the
overall status computed for the report. -/
def overallSuccess (testResults : List CheckResult) : Bool :=
  testResults.all fun result => result.success || result.skipped

/-- Count of successful results. -/
def successCount (rs : List CheckResult) : Nat := (rs.filter fun r => r.success).length

/-- Count of real (non-skipped) failures. -/
def failedCount (rs : List CheckResult) : Nat :=
  (rs.filter fun r => !r.success && !r.skipped).length

/-- Count of skipped results. -/
def skippedCount (rs : List CheckResult) : Nat := (rs.filter fun r => r.skipped).length

/-- Count of noise-filtered results. -/
def filteredCount (rs : List CheckResult) : Nat := (rs.filter fun r => r.filtered).length

/-- `'='.repeat(60)`. -/
def eqs60 : Str := List.replicate 60 '='

/-- `'-'.repeat(30)`. -/
def dashes30 : Str := List.replicate 30 '-'

/-- `'-'.repeat(20)`. -/
def dashes20 : Str := List.replicate 20 '-'

/-- Report header line and separator. -/
def headerBlock (env : EnvInfo) : Str :=
  '[' :: env.timestamp ++ str "] Relatório Completo de Testes\n" ++ eqs60 ++ str "\n\n"

/-- Environment section of the report. -/
def envBlock (env : EnvInfo) : Str :=
  str "🔧 INFORMAÇÕES DO AMBIENTE\n" ++ dashes30 ++ str "\n" ++
  str "Node.js: " ++ env.nodeVersion ++ str "\n" ++
  str "Plataforma: " ++ env.platform ++ str "\n" ++
  str "Prisma instalado: " ++ (if env.prismaInstalled then str "Sim" else str "Não") ++
  str "\n" ++
  str "Schema Prisma: " ++
  (if env.prismaSchemaExists then str "Encontrado" else str "Não encontrado") ++ str "\n" ++
  str "\n"

/-- Overall status section of the report. -/
def statusBlock (testResults : List CheckResult) (isRecurrent : Bool) : Str :=
  if overallSuccess testResults then
    str "✅ Status: SUCESSO\n\n" ++
    (let filteredTests := testResults.filter fun r => r.filtered
     if filteredTests.length > 0 then
       str "🔧 FILTROS APLICADOS: Erros dos scripts de log foram removidos automaticamente.\n"
       ++ str "Arquivos filtrados: " ++
       joinSep (str ", ") (filteredTests.map fun t => t.description) ++ str "\n\n"
     else []) ++
    str "Todos os testes passaram com sucesso!\n\n"
  else
    str "❌ Status: ERRO\n\n" ++
    (if isRecurrent then
      str "⚠️  ERRO RECORRENTE: Problemas similares já foram detectados em logs anteriores.\n\n"
     else [])

/-- Summary section up to and including the success counter. -/
def summaryPre (rs : List CheckResult) : Str :=
  str "📊 RESUMO DOS TESTES\n" ++ dashes30 ++ str "\n" ++
  str "✅ Sucessos: " ++ natToStr (successCount rs) ++ str "\n"

/-- Summary section after the failure counter. -/
def summaryPost (rs : List CheckResult) : Str :=
  str "⚠️  Ignorados: " ++ natToStr (skippedCount rs) ++ str "\n" ++
  (if filteredCount rs > 0 then
    str "🔧 Filtrados: " ++ natToStr (filteredCount rs) ++
      str " (erros de scripts de log removidos)\n"
   else []) ++
  str "📈 Total: " ++ natToStr rs.length ++ str "\n\n"

/-- Summary section of the report (the counters). -/
def summaryBlock (rs : List CheckResult) : Str :=
  summaryPre rs ++ (str "❌ Falhas: " ++ (natToStr (failedCount rs) ++ (str "\n" ++ summaryPost rs)))

/-- Status label of one per-check detail entry. -/
def statusLabel (result : CheckResult) : Str :=
  if result.skipped then str "⚠️  IGNORADO"
  else if result.success && result.filtered then str "🔧 SUCESSO (FILTRADO)"
  else if result.success then str "✅ SUCESSO"
  else if result.filtered then str "🔧 FALHOU (FILTRADO)"
  else str "❌ FALHOU"

/-- The indented, blank-line-free copy of a result's output. -/
def outputLines (output : Str) : Str :=
  ((linesL output).map fun line =>
    if (trimL line).isEmpty then [] else str "     " ++ line ++ str "\n").flatten

/-- One per-check detail entry. -/
def detailEntry (env : EnvInfo) (idx : Nat) (result : CheckResult) : Str :=
  natToStr (idx + 1) ++ str ". " ++ result.description ++ str "\n" ++
  str "   Status: " ++ statusLabel result ++ str "\n" ++
  str "   Comando: " ++ result.command ++ str "\n" ++
  str "   Código de saída: " ++ intToStr result.code ++ str "\n" ++
  str "   Horário: " ++ env.fmtLocale result.timestamp ++ str "\n" ++
  (if !result.filtered && !result.output.isEmpty then
    str "   Output:\n" ++ outputLines result.output
   else if result.filtered then
    str "   ℹ️  Output: [Filtrado - erros dos scripts de log removidos]\n"
   else []) ++
  str "\n"

/-- Detail section of the report. -/
def detailsBlock (env : EnvInfo) (rs : List CheckResult) : Str :=
  str "📋 DETALHES DOS TESTES\n" ++ dashes30 ++ str "\n\n" ++
  (rs.enum.map fun p => detailEntry env p.1 p.2).flatten

/-- One entry of the detailed-errors section. -/
def errorEntry (idx : Nat) (result : CheckResult) : Str :=
  str "Erro " ++ natToStr (idx + 1) ++ str ": " ++ result.description ++ str "\n" ++
  dashes20 ++ str "\n" ++
  (if !result.stderr.isEmpty then str "Detalhes do erro:\n" ++ result.stderr ++ str "\n\n"
   else []) ++
  (if !result.stdout.isEmpty && result.stdout != result.stderr then
    str "Output adicional:\n" ++ result.stdout ++ str "\n\n"
   else [])

/-- Detailed-errors section (real, unfiltered failures only). -/
def errorsBlock (rs : List CheckResult) : Str :=
  let failedTests := rs.filter fun r => !r.success && !r.skipped && !r.filtered
  if failedTests.length > 0 then
    str "🚨 ERROS DETALHADOS\n" ++ dashes30 ++ str "\n\n" ++
    (failedTests.enum.map fun p => errorEntry p.1 p.2).flatten
  else []

/-- One entry of the filtered-errors section. -/
def filteredEntry (idx : Nat) (result : CheckResult) : Str :=
  str "Filtrado " ++ natToStr (idx + 1) ++ str ": " ++ result.description ++ str "\n" ++
  dashes20 ++ str "\n" ++
  str "Tipo: Erros dos scripts de log removidos\n" ++
  str "Motivo: Continha referências a build-logger.js, analyze-logs.js ou setup-ignore-scripts.js\n\n"

/-- Filtered-errors section (failures that were noise-filtered). -/
def filteredBlock (rs : List CheckResult) : Str :=
  let filteredFailedTests := rs.filter fun r => !r.success && r.filtered
  if filteredFailedTests.length > 0 then
    str "🔧 ERROS FILTRADOS\n" ++ dashes30 ++ str "\n\n" ++
    (filteredFailedTests.enum.map fun p => filteredEntry p.1 p.2).flatten
  else []

/-- Report footer. -/
def footerBlock (env : EnvInfo) (rs : List CheckResult) : Str :=
  eqs60 ++ str "\n" ++
  str "Testes executados: " ++ joinSep (str ", ") (rs.map fun r => r.description) ++ str "\n" ++
  (if !env.prismaInstalled || !env.prismaSchemaExists then
    str "Testes ignorados: " ++
    (if !env.prismaInstalled then str "Prisma (não instalado)"
     else str "Prisma (schema não encontrado)") ++ str "\n"
   else []) ++
  str "Data/Hora: " ++ env.timestamp ++ str "\n" ++
  str "Duração total: " ++ natToStr env.durationSecs ++ str "s\n"

/-- Model of `generateComprehensiveLog(testResults, isRecurrent)`: the full
rendered report text (the ReportGenerator; the model returns the rendered
string, the `writeFileSync` side effect carries no further information). -/
def generateComprehensiveLog (testResults : List CheckResult) (isRecurrent : Bool)
    (env : EnvInfo) : Str :=
  headerBlock env ++ envBlock env ++ statusBlock testResults isRecurrent ++
  (summaryBlock testResults ++
    (detailsBlock env testResults ++
      (errorsBlock testResults ++ (filteredBlock testResults ++ footerBlock env testResults))))

/-- The fixed indicator list of the diagnostic script's `hasError`. -/
def hasErrorIndicators : List Str :=
  [str "❌ Status: ERRO", str "Status: ERRO", str "❌ Falhas:", str "Falhas: [1-9]",
   str "ERROS DETALHADOS", str "Build falhou", str "Error:", str "TypeError:",
   str "SyntaxError:", str "ReferenceError:"]

/-- Decimal digit test (`\d`). -/
def isDigitC (c : Char) : Bool := '0' ≤ c && c ≤ '9'

/-- Model of the regex test `/❌ Falhas: [1-9]\d*/.test(logContent)`: some
position starts with the literal prefix followed by a nonzero digit. -/
def falhasRegexTest : Str → Bool
  | [] => false
  | c :: rest =>
    (startsWithL (c :: rest) (str "❌ Falhas: ") &&
      (match (c :: rest).drop (str "❌ Falhas: ").length with
       | [] => false
       | d :: _ => '1' ≤ d && d ≤ '9')) ||
    falhasRegexTest rest

/-- Model of the diagnostic script's `hasError(logContent)`. -/
def hasError (logContent : Str) : Bool :=
  (hasErrorIndicators.any fun indicator =>
    containsL (lowerL logContent) (lowerL indicator)) || falhasRegexTest logContent

/-- Model of `isRecurrentFromLog(logContent)`. -/
def isRecurrentFromLog (logContent : Str) : Bool :=
  containsL logContent (str "ERRO RECORRENTE") ||
  containsL logContent (str "⚠️  ERRO RECORRENTE")

/-- Abstract syntax of the regular-expression fragment used by the
diagnostic script: literals, character classes, concatenation, greedy `?`,
greedy `*`, lazy `*?` and numbered capture groups. -/
inductive RE where
  | eps : RE
  | lit : Char → RE
  | cls : (Char → Bool) → RE
  | seq : RE → RE → RE
  | opt : RE → RE
  | star : RE → RE
  | starL : RE → RE
  | grp : Nat → RE → RE

/-- Captured groups, most recent first. -/
abbrev Caps := List (Nat × Str)

/-- Backtracking matcher in continuation-passing style, reproducing the
JavaScript engine's preference order (greedy quantifiers try the longer
alternative first, lazy ones the shorter).  `fuel` bounds the recursion
depth; every use below supplies fuel exceeding pattern size plus input
length, which the matcher never exhausts. -/
def mrun : Nat → RE → Str → Caps → (Str → Caps → Option (Str × Caps)) →
    Option (Str × Caps)
  | 0, _, _, _, _ => none
  | fuel + 1, re, s, caps, k =>
    match re with
    | .eps => k s caps
    | .lit c =>
      match s with
      | [] => none
      | a :: t => if a == c then k t caps else none
    | .cls p =>
      match s with
      | [] => none
      | a :: t => if p a then k t caps else none
    | .seq r1 r2 => mrun fuel r1 s caps fun s1 c1 => mrun fuel r2 s1 c1 k
    | .opt r => (mrun fuel r s caps k).orElse fun _ => k s caps
    | .star r =>
      (mrun fuel r s caps fun s1 c1 =>
        if s1.length < s.length then mrun fuel (.star r) s1 c1 k else none).orElse
        fun _ => k s caps
    | .starL r =>
      (k s caps).orElse fun _ =>
        mrun fuel r s caps fun s1 c1 =>
          if s1.length < s.length then mrun fuel (.starL r) s1 c1 k else none
    | .grp n r =>
      mrun fuel r s caps fun s1 c1 => k s1 ((n, s.take (s.length - s1.length)) :: c1)

/-- Latest capture of group `n` (JavaScript keeps the last assignment). -/
def capLookup (n : Nat) (caps : Caps) : Option Str :=
  (caps.find? fun p => p.1 == n).map fun p => p.2

/-- Attempt a match anchored at the start of `s`. -/
def reTry (re : RE) (s : Str) : Option (Str × Caps) :=
  mrun (s.length + 200) re s [] fun rem caps => some (rem, caps)

/-- First match at or after the current position, returning start index,
matched text and captures — the semantics of `matchAll`'s first element. -/
def reFirstFrom : RE → Str → Nat → Option (Nat × Str × Caps)
  | re, [], idx =>
    match reTry re [] with
    | some (_, caps) => some (idx, [], caps)
    | none => none
  | re, a :: t, idx =>
    match reTry re (a :: t) with
    | some (rem, caps) => some (idx, (a :: t).take ((a :: t).length - rem.length), caps)
    | none => reFirstFrom re t (idx + 1)

/-- First match of `re` anywhere in `s`. -/
def reFirst (re : RE) (s : Str) : Option (Nat × Str × Caps) := reFirstFrom re s 0

/-- All successive non-overlapping matches (the semantics of a `/g` regex
with `matchAll`/`match`); the patterns used never match the empty string. -/
def reAllAux : Nat → RE → Str → List (Str × Caps)
  | 0, _, _ => []
  | fuel + 1, re, s =>
    match reFirst re s with
    | none => []
    | some (idx, matched, caps) =>
      if matched.isEmpty then []
      else (matched, caps) :: reAllAux fuel re (s.drop (idx + matched.length))

/-- All matches of `re` in `s`. -/
def reAll (re : RE) (s : Str) : List (Str × Caps) := reAllAux (s.length + 1) re s

/-- Concatenation of a list of regular expressions. -/
def rcat : List RE → RE
  | [] => .eps
  | [r] => r
  | r :: p :: t => .seq r (rcat (p :: t))

/-- Literal string as a regular expression. -/
def rstr (t : Str) : RE := rcat (t.map RE.lit)

/-- Greedy `+`. -/
def rplus (r : RE) : RE := .seq r (.star r)

/-- Lazy `+?`. -/
def rplusL (r : RE) : RE := .seq r (.starL r)

/-- `\S` (non-whitespace). -/
def clsNonWs : RE := .cls fun c => !isWs c

/-- `\d`. -/
def clsDigit : RE := .cls isDigitC

/-- `.` (any character but a line terminator). -/
def dotAny : RE := .cls fun c => !(c == '\n' || c == '\r')

/-- `\.tsx?` — the common tail of the file patterns. -/
def tsxTail : RE := rcat [.lit '.', .lit 't', .lit 's', .opt (.lit 'x')]

/-- `/(\S+\.tsx?)\((\d+),\d+\)/` — the TypeScript error location format. -/
def reFilePattern1 : RE :=
  rcat [.grp 1 (.seq (rplus clsNonWs) tsxTail), .lit '(', .grp 2 (rplus clsDigit),
        .lit ',', rplus clsDigit, .lit ')']

/-- `/(\S+\.tsx?):(\d+):\d+/`. -/
def reFilePattern2 : RE :=
  rcat [.grp 1 (.seq (rplus clsNonWs) tsxTail), .lit ':', .grp 2 (rplus clsDigit),
        .lit ':', rplus clsDigit]

/-- `/at\s+(.+?):(\d+):\d+/` — stack-trace locations. -/
def reFilePattern3 : RE :=
  rcat [.lit 'a', .lit 't', rplus (.cls isWs), .grp 1 (rplusL dotAny), .lit ':',
        .grp 2 (rplus clsDigit), .lit ':', rplus clsDigit]

/-- `/Error in (.+\.tsx?)/`. -/
def reFilePattern4 : RE :=
  rcat [rstr (str "Error in "), .grp 1 (.seq (rplus dotAny) tsxTail)]

/-- `/(\S+\.tsx?):\s*(.+)/` — the generic format. -/
def reFilePattern5 : RE :=
  rcat [.grp 1 (.seq (rplus clsNonWs) tsxTail), .lit ':', .star (.cls isWs),
        .grp 2 (rplus dotAny)]

/-- The ordered file/line pattern list of `extractErrorDetails`. -/
def filePatterns : List RE :=
  [reFilePattern1, reFilePattern2, reFilePattern3, reFilePattern4, reFilePattern5]

/-- `/Erro \d+: (.+?)\n-{20}/` — one entry of the detailed-errors section. -/
def reErroOuter : RE :=
  rcat [rstr (str "Erro "), rplus clsDigit, rstr (str ": "), .grp 1 (rplusL dotAny),
        .lit '\n', rstr dashes20]

/-- `/Erro \d+: (.+?)\n/` — the inner re-match extracting the test name. -/
def reErroInner : RE :=
  rcat [rstr (str "Erro "), rplus clsDigit, rstr (str ": "), .grp 1 (rplusL dotAny),
        .lit '\n']

/-- Model of `String.prototype.split` with a string separator (fuel-based;
the separator is never empty in the uses below). -/
def splitOnStrAux (sep : Str) : Nat → Str → Str → List Str
  | 0, s, acc => [acc.reverse ++ s]
  | fuel + 1, s, acc =>
    match s with
    | [] => [acc.reverse]
    | a :: t =>
      if !sep.isEmpty && startsWithL (a :: t) sep then
        acc.reverse :: splitOnStrAux sep fuel ((a :: t).drop sep.length) []
      else splitOnStrAux sep fuel t (a :: acc)

/-- `s.split(sep)` for a non-empty string separator. -/
def splitOnStr (sep : Str) (s : Str) : List Str := splitOnStrAux sep (s.length + 1) s []

/-- JavaScript `a || b` on strings (empty and `undefined` are falsy). -/
def jsOrElseStr (a : Option Str) (b : Str) : Str :=
  match a with
  | some s => if s.isEmpty then b else s
  | none => b

/-- The structured error metadata extracted by `extractErrorDetails`.  The
`type` field of the source is `errType` here (`message` and `stackTrace`
are never assigned by the source and stay empty).  `lineNumber = none`
models both JavaScript `null` and `NaN`. -/
structure ErrorDetails where
  errType : Str
  message : Str
  fileName : Str
  lineNumber : Option Int
  stackTrace : Str
  fullError : Str
  failedTests : List Str
deriving DecidableEq

/-- Value of a digit string. -/
def digitsToNat (l : Str) : Nat := l.foldl (fun acc c => acc * 10 + (c.toNat - 48)) 0

/-- Model of `parseInt` on the strings the program feeds it: optional
whitespace and sign, then leading digits; `none` models `NaN`. -/
def parseIntJS (s : Str) : Option Int :=
  let t := s.dropWhile isWs
  let signed : Int × Str :=
    match t with
    | '-' :: r => (-1, r)
    | '+' :: r => (1, r)
    | _ => (1, t)
  let ds := signed.2.takeWhile isDigitC
  if ds.isEmpty then none else some (signed.1 * digitsToNat ds)

/-- The failed-check descriptions pulled from the detailed-errors section. -/
def extractFailedTests (logContent : Str) : List Str :=
  match (splitOnStr (str "🚨 ERROS DETALHADOS") logContent).get? 1 with
  | none => []
  | some failedTestsSection =>
    (reAll reErroOuter failedTestsSection).map fun m =>
      match reFirst reErroInner m.1 with
      | some (_, _, caps) => (capLookup 1 caps).getD []
      | none => []

/-- The `fullError` field: text after `Detalhes do erro:`, else after the
detailed-errors header, else the whole log; trimmed. -/
def extractFullError (logContent : Str) : Str :=
  trimL (jsOrElseStr ((splitOnStr (str "Detalhes do erro:") logContent).get? 1)
    (jsOrElseStr ((splitOnStr (str "🚨 ERROS DETALHADOS") logContent).get? 1) logContent))

/-- The ordered search over `filePatterns`: first pattern with a match
anywhere wins and only its first match is used. -/
def extractFileLineGo (logContent : Str) : List RE → Str × Option Int
  | [] => ([], none)
  | p :: ps =>
    match reFirst p logContent with
    | some (_, _, caps) =>
      ((capLookup 1 caps).getD [],
        match capLookup 2 caps with
        | some g2 => if g2.isEmpty then none else parseIntJS g2
        | none => none)
    | none => extractFileLineGo logContent ps

/-- File name and line number located in the report text. -/
def extractFileLine (logContent : Str) : Str × Option Int :=
  extractFileLineGo logContent filePatterns

/-- The keyword-priority classification of the overall error type. -/
def classifyErrorType (logContent : Str) (failedTests : List Str) : Str :=
  let errorLower := lowerL logContent
  if (failedTests.any fun t => containsL t (str "TypeScript")) ||
      containsL errorLower (str "typescript") || containsL errorLower (str "tsc") then
    str "TYPESCRIPT_ERROR"
  else if (failedTests.any fun t => containsL t (str "ESLint")) ||
      containsL errorLower (str "eslint") then str "ESLINT_ERROR"
  else if (failedTests.any fun t => containsL t (str "Prisma")) ||
      containsL errorLower (str "prisma") || containsL errorLower (str "database") then
    str "PRISMA_ERROR"
  else if (failedTests.any fun t => containsL t (str "Build")) ||
      containsL errorLower (str "next") || containsL errorLower (str "webpack") then
    str "NEXTJS_ERROR"
  else if containsL errorLower (str "module not found") ||
      containsL errorLower (str "cannot resolve") then str "MODULE_ERROR"
  else if containsL errorLower (str "syntax") then str "SYNTAX_ERROR"
  else str "UNKNOWN_ERROR"

/-- Model of `extractErrorDetails(logContent)`. -/
def extractErrorDetails (logContent : Str) : ErrorDetails :=
  let failedTests := extractFailedTests logContent
  let fl := extractFileLine logContent
  { errType := classifyErrorType logContent failedTests
    message := []
    fileName := fl.1
    lineNumber := fl.2
    stackTrace := []
    fullError := extractFullError logContent
    failedTests := failedTests }

/-- The per-failed-test pushes of `generateSpecificCommandsFromFailedTests`
(each `push` is guarded by `!commands.includes(...)`). -/
def commandsFromTest (commands : List Str) (test : Str) : List Str :=
  let c1 :=
    if containsL test (str "TypeScript") && !commands.contains (str "npx tsc --noEmit")
    then commands ++ [str "npx tsc --noEmit"] else commands
  let c2 :=
    if containsL test (str "ESLint") && !c1.contains (str "npm run lint -- --fix")
    then c1 ++ [str "npm run lint -- --fix"] else c1
  let c3 :=
    if containsL test (str "Prisma") && !c2.contains (str "npx prisma generate")
    then c2 ++ [str "npx prisma generate", str "npx prisma migrate dev"] else c2
  let c4 :=
    if containsL test (str "Build") && !c3.contains (str "rm -rf .next")
    then c3 ++ [str "rm -rf .next"] else c3
  let c5 :=
    if containsL test (str "Dependências") && !c4.contains (str "npm install")
    then c4 ++ [str "npm install"] else c4
  if containsL test (str "Auditoria") && !c5.contains (str "npm audit fix")
  then c5 ++ [str "npm audit fix"] else c5

/-- The `switch (errorDetails.type)` pushes of the same function. -/
def commandsFromType (commands : List Str) (errType : Str) : List Str :=
  if errType == str "TYPESCRIPT_ERROR" then
    (if !commands.contains (str "npx tsc --noEmit")
     then commands ++ [str "npx tsc --noEmit"] else commands)
  else if errType == str "PRISMA_ERROR" then
    (if !commands.contains (str "npx prisma generate")
     then commands ++ [str "npx prisma generate"] else commands)
  else if errType == str "MODULE_ERROR" then
    (if !commands.contains (str "npm install")
     then commands ++ [str "npm install"] else commands)
  else if errType == str "NEXTJS_ERROR" then
    (if !commands.contains (str "rm -rf .next")
     then commands ++ [str "rm -rf .next"] else commands)
  else commands

/-- First-occurrence deduplication (`[...new Set(commands)]`). -/
def dedupFirstAux (seen : List Str) : List Str → List Str
  | [] => []
  | a :: t =>
    if seen.contains a then dedupFirstAux seen t
    else a :: dedupFirstAux (a :: seen) t

/-- `[...new Set(l)]`. -/
def dedupFirst (l : List Str) : List Str := dedupFirstAux [] l

/-- Model of `generateSpecificCommandsFromFailedTests(failedTests,
errorDetails, projectErrors)`; the `projectErrors` parameter is never read
by the source function and is omitted. -/
def generateSpecificCommandsFromFailedTests (failedTests : List Str)
    (details : ErrorDetails) : List Str :=
  let c0 := failedTests.foldl commandsFromTest []
  let c1 := commandsFromType c0 details.errType
  dedupFirst (c1 ++ [str "npm run build:dev", str "node analyze-logs.js"])

/-- A concrete environment snapshot used by the closed scenario theorems. -/
def demoEnv : EnvInfo :=
  { nodeVersion := str "v20.0.0"
    platform := str "linux"
    prismaInstalled := false
    prismaSchemaExists := false
    timestamp := str "2024-01-01T10:00:00.000Z"
    durationSecs := 5
    fmtLocale := fun _ => str "01/01/2024, 07:00:00" }

/-- A fully successful type-check result. -/
def okResult : CheckResult :=
  runCommandClose (str "npx") [str "tsc", str "--noEmit"] (str "Verificação TypeScript") 0
    [] [] (str "2024-01-01T10:00:00.000Z")

/-- An apostrophe character, used to build literals containing quotes. -/
def apos : Char := '\''

/-- The TS2304 diagnostic line of end-to-end scenario 2. -/
def ts2304Line : Str :=
  str "src/app/page.tsx(10,5): error TS2304: Cannot find name " ++ [apos] ++ str "Foo"
    ++ [apos] ++ str "."

/-- Scenario 2: the type check exits 1 with the TS2304 line on stderr. -/
def scenario2Result : CheckResult :=
  runCommandClose (str "npx") [str "tsc", str "--noEmit"] (str "Verificação TypeScript") 1
    [] ts2304Line (str "2024-01-01T10:00:00.000Z")

/-- The report rendered from scenario 2's single failing check. -/
def scenario2Log : Str := generateComprehensiveLog [scenario2Result] false demoEnv

/-- The metadata the diagnostic stage extracts from scenario 2's report. -/
def scenario2Details : ErrorDetails := extractErrorDetails scenario2Log

/-- Executor result whose raw stdout (`TypeError: boom`) and raw stderr
(` in build-logger.js`) concatenate into the single output line
`TypeError: boom in build-logger.js`. -/
def noiseJunctionResult : CheckResult :=
  runCommandClose (str "npx") [str "tsc", str "--noEmit"] (str "Verificação TypeScript") 1
    (str "TypeError: boom") (str " in build-logger.js") (str "2024-01-01T10:00:00.000Z")

/-- A failing result interleaving an allowlisted line with a genuine
`Error:` line. -/
def mixedResult : CheckResult :=
  { description := str "Build do Next.js"
    command := str "npm run build:dev"
    code := 1
    success := false
    stdout := str "x build-logger.js\nError: real problem"
    stderr := []
    output := str "x build-logger.js\nError: real problem"
    timestamp := str "2024-01-01T10:00:00.000Z"
    skipped := false
    filtered := false }

/-- A failing result whose non-allowlisted remainder (`benign note`) is
non-empty but free of error indicators. -/
def discardResult : CheckResult :=
  { description := str "Build do Next.js"
    command := str "npm run build:dev"
    code := 1
    success := false
    stdout := str "benign note"
    stderr := str "x build-logger.js"
    output := str "benign note\nx build-logger.js"
    timestamp := str "2024-01-01T10:00:00.000Z"
    skipped := false
    filtered := false }

/-- A real (non-skipped) failure used by the recurrence witness. -/
def failedResult : CheckResult :=
  { description := str "Verificação TypeScript"
    command := str "npx tsc --noEmit"
    code := 1
    success := false
    stdout := []
    stderr := str "boom"
    output := str "boom"
    timestamp := str "2024-01-01T10:00:00.000Z"
    skipped := false
    filtered := false }

/-- A prior report on disk containing the error marker, the failing check's
description and the `FALHOU` marker. -/
def histLogContent : Str :=
  str "❌ Status: ERRO\n1. Verificação TypeScript\n   Status: ❌ FALHOU\n"

/-- A prior report on disk whose text contains the error-status marker, the
failing check's description and the `FALHOU` marker. -/
def histLog : LogFile :=
  { name := str "log-2024-01-01-10-00.log"
    mtime := 5
    content := some histLogContent }

/-- End-to-end scenario 3: a check whose raw stderr is exactly
`build-logger.js:12: ReferenceError`. -/
def scenario3Result : CheckResult :=
  runCommandClose (str "npm") [str "run", str "build:dev"] (str "Build do Next.js") 1
    [] (str "build-logger.js:12: ReferenceError") (str "2024-01-01T10:00:00.000Z")

theorem startsWithL_iff {s n : Str} : startsWithL s n = true ↔ ∃ t, s = n ++ t := by
  induction n generalizing s with
  | nil => simp [startsWithL]
  | cons b n ih =>
    cases s with
    | nil => simp [startsWithL]
    | cons a s =>
      simp only [startsWithL, Bool.and_eq_true, beq_iff_eq, ih]
      constructor
      · rintro ⟨rfl, t, rfl⟩; exact ⟨t, rfl⟩
      · rintro ⟨t, h⟩
        injection h with h1 h2
        exact ⟨h1, t, h2⟩

theorem containsL_iff {s n : Str} : containsL s n = true ↔ n <:+: s := by
  induction s with
  | nil =>
    simp only [containsL, List.isEmpty_iff]
    constructor
    · rintro rfl; exact List.infix_rfl
    · intro h; exact List.eq_nil_of_infix_nil h
  | cons a s ih =>
    simp only [containsL, Bool.or_eq_true, startsWithL_iff, ih]
    constructor
    · rintro (⟨t, ht⟩ | h)
      · exact ⟨[], t, by simp [ht]⟩
      · exact h.trans ⟨[a], [], by simp⟩
    · rintro ⟨x, y, hxy⟩
      cases x with
      | nil => exact Or.inl ⟨y, by simpa using hxy.symm⟩
      | cons c x =>
        injection hxy with h1 h2
        exact Or.inr ⟨x, y, h2⟩

theorem containsL_of_sub {s n : Str} (h : n <:+: s) : containsL s n = true :=
  containsL_iff.mpr h

theorem containsL_append_left {a n : Str} (b : Str) (h : containsL a n = true) :
    containsL (a ++ b) n = true :=
  containsL_of_sub ((containsL_iff.mp h).trans ⟨[], b, by simp⟩)

theorem containsL_append_right (a : Str) {b n : Str} (h : containsL b n = true) :
    containsL (a ++ b) n = true := by
  obtain ⟨x, y, rfl⟩ := containsL_iff.mp h
  exact containsL_of_sub ⟨a ++ x, y, by simp⟩

theorem containsL_trans {s t n : Str} (h1 : containsL s t = true) (h2 : containsL t n = true) :
    containsL s n = true :=
  containsL_of_sub ((containsL_iff.mp h2).trans (containsL_iff.mp h1))

theorem containsL_map {s n : Str} (f : Char → Char) (h : containsL s n = true) :
    containsL (s.map f) (n.map f) = true := by
  obtain ⟨x, y, rfl⟩ := containsL_iff.mp h
  exact containsL_of_sub ⟨x.map f, y.map f, by simp⟩

theorem containsL_nil_eq {n : Str} : containsL [] n = n.isEmpty := rfl

theorem startsWithL_append_cons {x y n : Str} {c : Char}
    (h : startsWithL (x ++ c :: y) n = true) (hc : n.contains c = false) :
    startsWithL x n = true := by
  induction n generalizing x with
  | nil => cases x <;> rfl
  | cons b n ih =>
    cases x with
    | nil =>
      simp only [List.nil_append, startsWithL, Bool.and_eq_true, beq_iff_eq] at h
      simp [h.1] at hc
    | cons a x =>
      simp only [List.cons_append, startsWithL, Bool.and_eq_true] at h ⊢
      refine ⟨h.1, ih h.2 ?_⟩
      simp only [List.contains_cons, Bool.or_eq_false_iff] at hc
      exact hc.2

theorem containsL_append_cons {a b n : Str} {c : Char}
    (h : containsL (a ++ c :: b) n = true) (hc : n.contains c = false) :
    containsL a n = true ∨ containsL b n = true := by
  induction a with
  | nil =>
    simp only [List.nil_append, containsL, Bool.or_eq_true] at h
    rcases h with h | h
    · cases n with
      | nil => exact Or.inl rfl
      | cons d n =>
        simp only [startsWithL, Bool.and_eq_true, beq_iff_eq] at h
        simp [← h.1] at hc
    · exact Or.inr h
  | cons d a ih =>
    simp only [List.cons_append, containsL, Bool.or_eq_true] at h
    rcases h with h | h
    · cases n with
      | nil => exact Or.inl rfl
      | cons e n =>
        simp only [startsWithL, Bool.and_eq_true] at h
        have hsw : startsWithL (a ++ c :: b) n = true := h.2
        have hn : n.contains c = false := by
          simp only [List.contains_cons, Bool.or_eq_false_iff] at hc
          exact hc.2
        have := startsWithL_append_cons hsw hn
        exact Or.inl (by simp [containsL, startsWithL, h.1, this])
    · rcases ih h with h' | h'
      · exact Or.inl (by simp [containsL, h'])
      · exact Or.inr h'

theorem containsL_dropWhile {s n : Str} (hne : n ≠ [])
    (hws : n.all (fun c => !isWs c) = true) (h : containsL s n = true) :
    containsL (s.dropWhile isWs) n = true := by
  induction s with
  | nil => simpa using h
  | cons a s ih =>
    by_cases ha : isWs a = true
    · rw [List.dropWhile_cons_of_pos ha]
      apply ih
      simp only [containsL, Bool.or_eq_true] at h
      rcases h with h | h
      · cases n with
        | nil => exact absurd rfl hne
        | cons b n =>
          simp only [startsWithL, Bool.and_eq_true, beq_iff_eq] at h
          have : isWs b = false := by
            have := List.all_eq_true.mp hws b (by simp)
            simpa using this
          rw [← h.1] at this
          rw [ha] at this
          cases this
      · exact h
    · rw [List.dropWhile_cons_of_neg ha]
      exact h

theorem containsL_reverse {s n : Str} (h : containsL s n = true) :
    containsL s.reverse n.reverse = true := by
  obtain ⟨x, y, rfl⟩ := containsL_iff.mp h
  exact containsL_of_sub ⟨y.reverse, x.reverse, by simp⟩

theorem containsL_trimL {s n : Str} (hne : n ≠ [])
    (hws : n.all (fun c => !isWs c) = true) (h : containsL s n = true) :
    containsL (trimL s) n = true := by
  have h1 : containsL (s.dropWhile isWs) n = true := containsL_dropWhile hne hws h
  have h2 : containsL (s.dropWhile isWs).reverse n.reverse = true := containsL_reverse h1
  have hne' : n.reverse ≠ [] := by simpa using hne
  have hws' : n.reverse.all (fun c => !isWs c) = true := by
    simpa [List.all_eq_true] using List.all_eq_true.mp hws
  have h3 : containsL ((s.dropWhile isWs).reverse.dropWhile isWs) n.reverse = true :=
    containsL_dropWhile hne' hws' h2
  have h4 := containsL_reverse h3
  simpa [trimL] using h4

theorem splitOnChar_ne_nil (c : Char) (s : Str) : splitOnChar c s ≠ [] := by
  cases s with
  | nil => simp [splitOnChar]
  | cons a as =>
    simp only [splitOnChar]
    by_cases h : a == c
    · simp [h]
    · simp only [h]
      cases hr : splitOnChar c as <;> simp

theorem joinNl_cons_cons (a h : Str) (t : List Str) :
    joinNl ((a ++ h) :: t) = a ++ joinNl (h :: t) := by
  cases t with
  | nil => simp [joinNl]
  | cons r t => simp [joinNl]

theorem joinNl_splitOnChar (s : Str) : joinNl (splitOnChar '\n' s) = s := by
  induction s with
  | nil => rfl
  | cons a as ih =>
    simp only [splitOnChar]
    by_cases h : a == '\n'
    · have ha : a = '\n' := by simpa using h
      simp only [h, if_pos]
      obtain ⟨hh, tt, hht⟩ : ∃ hh tt, splitOnChar '\n' as = hh :: tt := by
        cases hsp : splitOnChar '\n' as with
        | nil => exact absurd hsp (splitOnChar_ne_nil _ _)
        | cons hh tt => exact ⟨hh, tt, rfl⟩
      rw [hht]
      rw [hht] at ih
      simp only [joinNl]
      rw [ih, ha]
      rfl
    · simp only [h, if_neg, Bool.false_eq_true, not_false_iff]
      cases hsp : splitOnChar '\n' as with
      | nil => exact absurd hsp (splitOnChar_ne_nil _ _)
      | cons hh tt =>
        rw [hsp] at ih
        show joinNl ((a :: hh) :: tt) = a :: as
        have heq : (a :: hh) :: tt = ([a] ++ hh) :: tt := rfl
        rw [heq, joinNl_cons_cons, ih]
        rfl

theorem containsL_joinNl_of_mem {parts : List Str} {l n : Str}
    (hm : l ∈ parts) (h : containsL l n = true) : containsL (joinNl parts) n = true := by
  induction parts with
  | nil => cases hm
  | cons p rest ih =>
    cases rest with
    | nil =>
      rcases List.mem_singleton.mp hm with rfl
      simpa [joinNl] using h
    | cons q t =>
      simp only [joinNl]
      rcases List.mem_cons.mp hm with rfl | hm'
      · exact containsL_append_left _ h
      · have := ih hm'
        exact containsL_append_right p (by simpa [containsL] using Or.inr this)

theorem containsL_cons_of_tail {a : Char} {s n : Str} (h : containsL s n = true) :
    containsL (a :: s) n = true := by
  simp [containsL, h]

theorem not_containsL_joinNl {parts : List Str} {n : Str}
    (hnl : n.contains '\n' = false) (hne : n ≠ [])
    (hall : ∀ l ∈ parts, containsL l n = false) :
    containsL (joinNl parts) n = false := by
  induction parts with
  | nil =>
    simpa [containsL, List.isEmpty_iff] using hne
  | cons p rest ih =>
    cases rest with
    | nil => simpa [joinNl] using hall p (by simp)
    | cons q t =>
      simp only [joinNl]
      by_contra hcon
      rw [Bool.not_eq_false] at hcon
      rcases containsL_append_cons hcon hnl with h | h
      · rw [hall p (by simp)] at h; cases h
      · have : containsL (joinNl (q :: t)) n = false :=
          ih (fun l hl => hall l (List.mem_cons_of_mem p hl))
        rw [this] at h; cases h

theorem containsL_of_mem_linesL {s l n : Str} (hm : l ∈ linesL s)
    (h : containsL l n = true) : containsL s n = true := by
  have h1 := containsL_joinNl_of_mem hm h
  rwa [show joinNl (linesL s) = s from joinNl_splitOnChar s] at h1

theorem lineHasScriptRef_of_mention {l : Str}
    (h : (logScriptFiles.any fun f => containsL l f) = true) : lineHasScriptRef l = true := by
  rw [List.any_eq_true] at h
  obtain ⟨f, hf, hc⟩ := h
  rw [lineHasScriptRef, List.any_eq_true]
  exact ⟨f, hf, by simp [hc]⟩

theorem filterLogScriptLines_eq_nil {t : Str}
    (h : ((linesL t).all fun l => logScriptFiles.any fun f => containsL l f) = true) :
    filterLogScriptLines t = [] := by
  rw [filterLogScriptLines]
  by_cases ht : t.isEmpty
  · simp [ht]
  · rw [if_neg ht]
    have hfil : (linesL t).filter (fun line => !lineHasScriptRef line) = [] := by
      rw [List.filter_eq_nil_iff]
      intro l hl
      have hm := List.all_eq_true.mp h l hl
      simp [lineHasScriptRef_of_mention hm]
    rw [hfil]
    rfl

theorem logScriptFiles_facts :
    ∀ f ∈ logScriptFiles, f ≠ [] ∧ f.contains '\n' = false := by
  intro f hf
  simp only [logScriptFiles, List.mem_cons, List.not_mem_nil, or_false] at hf
  rcases hf with rfl | rfl | rfl
  · exact ⟨by decide, by decide⟩
  · exact ⟨by decide, by decide⟩
  · exact ⟨by decide, by decide⟩

theorem filterLogScriptLines_no_script {t f : Str} (hf : f ∈ logScriptFiles) :
    containsL (filterLogScriptLines t) f = false := by
  obtain ⟨hne, hnl⟩ := logScriptFiles_facts f hf
  rw [filterLogScriptLines]
  by_cases ht : t.isEmpty
  · rw [if_pos ht, containsL_nil_eq]
    simpa [List.isEmpty_iff] using hne
  · rw [if_neg ht]
    apply not_containsL_joinNl hnl hne
    intro l hl
    rw [List.mem_filter] at hl
    have href : lineHasScriptRef l = false := by simpa using hl.2
    by_contra hcon
    rw [Bool.not_eq_false] at hcon
    have : lineHasScriptRef l = true :=
      lineHasScriptRef_of_mention (List.any_eq_true.mpr ⟨f, hf, hcon⟩)
    rw [href] at this
    cases this

theorem hasLogScriptError_filtered (r : CheckResult) :
    hasLogScriptError
      { r with
        output := filterLogScriptLines r.output
        stdout := filterLogScriptLines r.stdout
        stderr := filterLogScriptLines r.stderr
        filtered := true } = false := by
  rw [hasLogScriptError, List.any_eq_false]
  intro f hf
  simp [filterLogScriptLines_no_script hf]

theorem linesL_ne_nil (s : Str) : linesL s ≠ [] := splitOnChar_ne_nil '\n' s

theorem hasLogScriptError_of_output_line {r : CheckResult} {l : Str}
    (hl : l ∈ linesL r.output)
    (hm : (logScriptFiles.any fun f => containsL l f) = true) :
    hasLogScriptError r = true := by
  rw [List.any_eq_true] at hm
  obtain ⟨f, hf, hc⟩ := hm
  rw [hasLogScriptError, List.any_eq_true]
  exact ⟨f, hf, by simp [containsL_of_mem_linesL hl hc]⟩

theorem filterStep_of_pass {r : CheckResult} (h : (r.skipped || r.success) = true) :
    filterStep r = r := by
  rw [filterStep, if_pos h]

theorem filterStep_of_no_script {r : CheckResult} (h1 : (r.skipped || r.success) = false)
    (h2 : hasLogScriptError r = false) : filterStep r = r := by
  rw [filterStep, if_neg (by simp [h1]), if_neg (by simp [h2])]

theorem filterStep_of_promoted {r : CheckResult} (h1 : (r.skipped || r.success) = false)
    (h2 : hasLogScriptError r = true)
    (h3 : checkForRemainingErrors (filterLogScriptLines r.output)
      (filterLogScriptLines r.stdout) (filterLogScriptLines r.stderr) = false) :
    filterStep r =
      { r with
        success := true
        code := 0
        output := []
        stdout := []
        stderr := []
        filtered := true } := by
  rw [filterStep, if_neg (by simp [h1]), if_pos h2]
  simp only [h3, Bool.not_false, if_pos]

theorem filterStep_of_residual {r : CheckResult} (h1 : (r.skipped || r.success) = false)
    (h2 : hasLogScriptError r = true)
    (h3 : checkForRemainingErrors (filterLogScriptLines r.output)
      (filterLogScriptLines r.stdout) (filterLogScriptLines r.stderr) = true) :
    filterStep r =
      { r with
        output := filterLogScriptLines r.output
        stdout := filterLogScriptLines r.stdout
        stderr := filterLogScriptLines r.stderr
        filtered := true } := by
  rw [filterStep, if_neg (by simp [h1]), if_pos h2]
  simp only [h3, Bool.not_true, if_neg, Bool.false_eq_true, not_false_iff]

theorem filterStep_idem (r : CheckResult) : filterStep (filterStep r) = filterStep r := by
  by_cases h1 : (r.skipped || r.success) = true
  · rw [filterStep_of_pass h1, filterStep_of_pass h1]
  · rw [Bool.not_eq_true] at h1
    by_cases h2 : hasLogScriptError r = true
    · by_cases h3 : checkForRemainingErrors (filterLogScriptLines r.output)
        (filterLogScriptLines r.stdout) (filterLogScriptLines r.stderr) = true
      · rw [filterStep_of_residual h1 h2 h3]
        apply filterStep_of_no_script
        · simpa using h1
        · exact hasLogScriptError_filtered r
      · rw [Bool.not_eq_true] at h3
        rw [filterStep_of_promoted h1 h2 h3]
        apply filterStep_of_pass
        simp
    · rw [Bool.not_eq_true] at h2
      rw [filterStep_of_no_script h1 h2, filterStep_of_no_script h1 h2]

theorem length_dropWhile_le_self (p : Char → Bool) (l : Str) :
    (l.dropWhile p).length ≤ l.length :=
  (List.dropWhile_suffix p).length_le

theorem head_not_ws {a : Char} {t : Str} (h : (a :: t).dropWhile isWs = a :: t) :
    isWs a = false := by
  by_contra hc
  rw [Bool.not_eq_false] at hc
  rw [List.dropWhile_cons_of_pos hc] at h
  have hlen := congrArg List.length h
  have hle := length_dropWhile_le_self isWs t
  simp only [List.length_cons] at hlen
  omega

theorem dropWhile_eq_self_of_trimL_eq {s : Str} (h : trimL s = s) :
    s.dropWhile isWs = s ∧ s.reverse.dropWhile isWs = s.reverse := by
  have hlen : (trimL s).length = s.length := by rw [h]
  have h1 : ((s.dropWhile isWs).reverse.dropWhile isWs).length ≤
      (s.dropWhile isWs).length := by
    have := length_dropWhile_le_self isWs (s.dropWhile isWs).reverse
    simpa using this
  have h2 : (s.dropWhile isWs).length ≤ s.length := length_dropWhile_le_self isWs s
  have htl : (trimL s).length = ((s.dropWhile isWs).reverse.dropWhile isWs).length := by
    simp [trimL]
  have hd : (s.dropWhile isWs).length = s.length := by omega
  have hds : s.dropWhile isWs = s := (List.dropWhile_suffix isWs).eq_of_length hd
  refine ⟨hds, ?_⟩
  have hd2 : (s.reverse.dropWhile isWs).length = s.reverse.length := by
    rw [hds] at htl
    simp only [List.length_reverse] at htl ⊢
    omega
  exact (List.dropWhile_suffix isWs).eq_of_length hd2

theorem trimL_append_of_fixed {o e : Str} (ho : trimL o = o) (he : trimL e = e) :
    trimL (o ++ e) = o ++ e := by
  cases o with
  | nil => simpa using he
  | cons a o2 =>
    cases e with
    | nil => simpa using ho
    | cons b e2 =>
      have h1 := (dropWhile_eq_self_of_trimL_eq ho).1
      have h2 := (dropWhile_eq_self_of_trimL_eq he).2
      have ha : isWs a = false := head_not_ws h1
      obtain ⟨c, r, hcr⟩ : ∃ c r, (b :: e2).reverse = c :: r := by
        cases hrr : (b :: e2).reverse with
        | nil =>
          have := congrArg List.length hrr
          simp at this
        | cons c r => exact ⟨c, r, rfl⟩
      have hc : isWs c = false := by
        rw [hcr] at h2
        exact head_not_ws h2
      rw [trimL, List.cons_append, List.dropWhile_cons_of_neg (by simp [ha])]
      rw [show (a :: (o2 ++ b :: e2)).reverse = (b :: e2).reverse ++ (a :: o2).reverse by
        simp]
      rw [hcr, List.cons_append, List.dropWhile_cons_of_neg (by simp [hc])]
      rw [← List.cons_append, ← hcr, ← List.reverse_append]
      simp

theorem recurrenceLoop_iff (results : List CheckResult) (l : List LogFile)
    (h : ∀ f ∈ l, f.content ≠ none) :
    recurrenceLoop results l = true ↔
      ∃ f ∈ l, ∃ c, f.content = some c ∧ recurrentInLog results c = true := by
  induction l with
  | nil => simp [recurrenceLoop]
  | cons f rest ih =>
    cases hc : f.content with
    | none => exact absurd hc (h f (by simp))
    | some c =>
      simp only [recurrenceLoop, hc]
      by_cases hr : recurrentInLog results c = true
      · rw [if_pos hr]
        exact ⟨fun _ => ⟨f, by simp, c, hc, hr⟩, fun _ => rfl⟩
      · rw [if_neg hr]
        rw [ih fun g hg => h g (List.mem_cons_of_mem f hg)]
        constructor
        · rintro ⟨g, hg, c2, hc2, hrec⟩
          exact ⟨g, List.mem_cons_of_mem f hg, c2, hc2, hrec⟩
        · rintro ⟨g, hg, c2, hc2, hrec⟩
          rcases List.mem_cons.mp hg with rfl | hg'
          · rw [hc] at hc2
            injection hc2 with hcc
            subst hcc
            exact absurd hrec hr
          · exact ⟨g, hg', c2, hc2, hrec⟩

theorem recurrentInLog_iff (results : List CheckResult) (c : Str) :
    recurrentInLog results c = true ↔
      (∃ r ∈ results, r.success = false ∧ r.skipped = false) ∧
      containsL c (str "❌ Status: ERRO") = true ∧
      ∃ r ∈ results, r.success = false ∧ r.skipped = false ∧
        containsL c r.description = true ∧ containsL c (str "FALHOU") = true := by
  simp only [recurrentInLog, Bool.and_eq_true, hasFailedTests, currentErrors,
    List.any_eq_true, List.mem_map, List.mem_filter, Bool.not_eq_true']
  constructor
  · rintro ⟨⟨hA, hB⟩, x, ⟨a, ⟨ha, hs, hk⟩, rfl⟩, hcx, hcf⟩
    exact ⟨hA, hB, a, ha, hs, hk, hcx, hcf⟩
  · rintro ⟨hA, hB, r, hr, hs, hk, hcd, hcf⟩
    exact ⟨⟨hA, hB⟩, r.description, ⟨r, ⟨hr, hs, hk⟩, rfl⟩, hcd, hcf⟩

set_option maxRecDepth 1000000

/-- C1 (counterexample): the report round-trip claim fails — for a battery
whose single check succeeded, `overallSuccess` is `true` and yet `hasError`
on the rendered report is also `true` (the summary always contains the
indicator `❌ Falhas:`), so `hasError` is not equivalent to
`overallSuccess == false`. -/
theorem c1_report_roundtrip_counterexample :
    overallSuccess [okResult] = true ∧
    hasError (generateComprehensiveLog [okResult] false demoEnv) = true := by decide

/-- C1 (amended): `hasError` holds of every rendered report, whatever the
result sequence — in particular whenever `overallSuccess = false` — because
the always-present summary line starts with the indicator `❌ Falhas:`;
the claimed equivalence therefore holds in the only-if direction but fails
for successful runs. -/
theorem c1_hasError_always_true (rs : List CheckResult) (isRec : Bool) (env : EnvInfo) :
    hasError (generateComprehensiveLog rs isRec env) = true := by
  have h1 : containsL (generateComprehensiveLog rs isRec env) (str "❌ Falhas:") = true := by
    rw [generateComprehensiveLog]
    apply containsL_append_right
    apply containsL_append_left
    rw [summaryBlock]
    apply containsL_append_right
    apply containsL_append_left
    decide
  have h2 := containsL_map lowerC h1
  rw [hasError, Bool.or_eq_true]
  left
  rw [List.any_eq_true]
  exact ⟨str "❌ Falhas:", by simp [hasErrorIndicators], h2⟩

/-- C2 (counterexample): the claim fails on an executor-produced record.
For raw streams `TypeError: boom` / ` in build-logger.js` the `output`
field is the single line `TypeError: boom in build-logger.js`: every line
of `output` mentions an allowlisted file and the stripped `output` carries
no error indicator, yet the filtered result is NOT promoted — the `stdout`
field keeps the line `TypeError: boom`, whose `error` indicator survives —
so `success` stays `false` and `stdout` is non-empty. -/
theorem c2_noise_only_counterexample :
    noiseJunctionResult.success = false ∧ noiseJunctionResult.skipped = false ∧
    ((linesL noiseJunctionResult.output).all fun l =>
      logScriptFiles.any fun f => containsL l f) = true ∧
    (errorIndicators.all fun ind =>
      !containsL (lowerL (filterLogScriptLines noiseJunctionResult.output))
        (lowerL ind)) = true ∧
    filterLogScriptErrors [noiseJunctionResult] =
      [{ noiseJunctionResult with
          output := []
          stdout := str "TypeError: boom"
          stderr := []
          filtered := true }] := by decide

/-- C2 (amended): for every failed, non-skipped CheckResult each of whose
three text fields is empty or consists only of lines mentioning a
noise-allowlisted filename (with `output` containing at least one such
line), NoiseFilter promotes the result: `success = true`, exit code `0`,
all three text fields empty and `filtered = true`. -/
theorem c2_noise_promotion (r : CheckResult)
    (hs : r.success = false) (hk : r.skipped = false)
    (ho : ((linesL r.output).all fun l => logScriptFiles.any fun f => containsL l f) = true)
    (h1 : r.stdout = [] ∨
      ((linesL r.stdout).all fun l => logScriptFiles.any fun f => containsL l f) = true)
    (h2 : r.stderr = [] ∨
      ((linesL r.stderr).all fun l => logScriptFiles.any fun f => containsL l f) = true) :
    filterLogScriptErrors [r] =
      [{ r with
          success := true
          code := 0
          output := []
          stdout := []
          stderr := []
          filtered := true }] := by
  have hor : (r.skipped || r.success) = false := by rw [hs, hk]; rfl
  obtain ⟨l0, hl0⟩ : ∃ l0, l0 ∈ linesL r.output :=
    List.exists_mem_of_ne_nil _ (linesL_ne_nil r.output)
  have htrig := hasLogScriptError_of_output_line hl0 (List.all_eq_true.mp ho l0 hl0)
  have hfo := filterLogScriptLines_eq_nil ho
  have hfs : filterLogScriptLines r.stdout = [] := by
    rcases h1 with h | h
    · rw [h]; rfl
    · exact filterLogScriptLines_eq_nil h
  have hfe : filterLogScriptLines r.stderr = [] := by
    rcases h2 with h | h
    · rw [h]; rfl
    · exact filterLogScriptLines_eq_nil h
  have hck : checkForRemainingErrors (filterLogScriptLines r.output)
      (filterLogScriptLines r.stdout) (filterLogScriptLines r.stderr) = false := by
    rw [hfo, hfs, hfe]; rfl
  rw [filterLogScriptErrors, List.map_cons, List.map_nil,
    filterStep_of_promoted hor htrig hck]

/-- C2 (witness): end-to-end scenario 3 — a check whose raw stderr is only
`build-logger.js:12: ReferenceError` is promoted to success with all text
fields cleared and `filtered = true`. -/
theorem c2_noise_promotion_witness :
    filterLogScriptErrors [scenario3Result] =
      [{ scenario3Result with
          success := true
          code := 0
          output := []
          stdout := []
          stderr := []
          filtered := true }] :=
  c2_noise_promotion scenario3Result (by decide) (by decide) (by decide)
    (Or.inl (by decide)) (Or.inr (by decide))

/-- C3: for every failed, non-skipped CheckResult whose output has a line
mentioning a noise-allowlisted filename interleaved with a genuine line
containing `Error:` (itself free of allowlisted references), the filtered
result keeps `success = false`, carries `filtered = true`, and its `output`
still contains the genuine error line. -/
theorem c3_preserves_real_errors (r : CheckResult) (a b : Str)
    (hs : r.success = false) (hk : r.skipped = false)
    (ha : a ∈ linesL r.output)
    (hma : (logScriptFiles.any fun f => containsL a f) = true)
    (hb : b ∈ linesL r.output)
    (hmb : lineHasScriptRef b = false)
    (heb : containsL b (str "Error:") = true) :
    (filterStep r).success = false ∧ (filterStep r).filtered = true ∧
      containsL (filterStep r).output b = true := by
  have hor : (r.skipped || r.success) = false := by rw [hs, hk]; rfl
  have htrig := hasLogScriptError_of_output_line ha hma
  have hbne : b ≠ [] := by
    intro hb0
    rw [hb0] at heb
    exact absurd heb (by decide)
  have houtne : r.output.isEmpty = false := by
    cases houno : r.output with
    | nil =>
      rw [houno] at hb
      simp only [linesL, splitOnChar, List.mem_singleton] at hb
      exact absurd hb hbne
    | cons c t => rfl
  have hfo : filterLogScriptLines r.output =
      joinNl ((linesL r.output).filter fun l => !lineHasScriptRef l) := by
    rw [filterLogScriptLines, if_neg (by simp [houtne])]
  have hbmem : b ∈ (linesL r.output).filter fun l => !lineHasScriptRef l :=
    List.mem_filter.mpr ⟨hb, by simp [hmb]⟩
  have hcfo : containsL (filterLogScriptLines r.output) b = true := by
    rw [hfo]
    exact containsL_joinNl_of_mem hbmem (containsL_of_sub List.infix_rfl)
  have herr : containsL (filterLogScriptLines r.output) (str "Error:") = true :=
    containsL_trans hcfo heb
  have hck : checkForRemainingErrors (filterLogScriptLines r.output)
      (filterLogScriptLines r.stdout) (filterLogScriptLines r.stderr) = true := by
    rw [checkForRemainingErrors]
    have hcomb : containsL (trimL (filterLogScriptLines r.output ++
        filterLogScriptLines r.stdout ++ filterLogScriptLines r.stderr))
        (str "Error:") = true := by
      apply containsL_trimL (by decide) (by decide)
      apply containsL_append_left
      apply containsL_append_left
      exact herr
    have hneq : trimL (filterLogScriptLines r.output ++
        filterLogScriptLines r.stdout ++ filterLogScriptLines r.stderr) ≠ [] := by
      intro hz
      rw [hz] at hcomb
      exact absurd hcomb (by decide)
    rw [if_neg (by simpa [List.isEmpty_iff] using hneq)]
    rw [List.any_eq_true]
    refine ⟨str "error", by simp [errorIndicators], ?_⟩
    have hlow := containsL_map lowerC hcomb
    have hstep : containsL (lowerL (trimL (filterLogScriptLines r.output ++
        filterLogScriptLines r.stdout ++ filterLogScriptLines r.stderr)))
        (str "error:") = true := by
      have : (str "Error:").map lowerC = str "error:" := by decide
      rw [this] at hlow
      exact hlow
    exact containsL_trans hstep (by decide)
  rw [filterStep_of_residual hor htrig hck]
  exact ⟨hs, rfl, hcfo⟩

/-- C3 (witness): the concrete mixed result — allowlisted line
`x build-logger.js` interleaved with a genuine `Error: real problem` line —
stays failed, is marked filtered, and keeps the genuine line. -/
theorem c3_preserves_real_errors_witness :
    (filterStep mixedResult).success = false ∧ (filterStep mixedResult).filtered = true ∧
      containsL (filterStep mixedResult).output (str "Error: real problem") = true :=
  c3_preserves_real_errors mixedResult (str "x build-logger.js") (str "Error: real problem")
    (by decide) (by decide) (by decide) (by decide) (by decide) (by decide) (by decide)

/-- C4: for every failed, non-skipped CheckResult whose text fields mention
a noise-allowlisted filename, when the stripped text carries none of the
fixed error indicators the result is promoted: `success = true`, exit code
`0`, all three text fields cleared and `filtered = true` — whatever the
stripped (and discarded) remainder was. -/
theorem c4_promotion_discards_residual (r : CheckResult)
    (hs : r.success = false) (hk : r.skipped = false)
    (ht : hasLogScriptError r = true)
    (hr : checkForRemainingErrors (filterLogScriptLines r.output)
      (filterLogScriptLines r.stdout) (filterLogScriptLines r.stderr) = false) :
    filterStep r =
      { r with
        success := true
        code := 0
        output := []
        stdout := []
        stderr := []
        filtered := true } := by
  have hor : (r.skipped || r.success) = false := by rw [hs, hk]; rfl
  exact filterStep_of_promoted hor ht hr

/-- C4 (witness): `discardResult`'s stripped stdout is the non-empty,
indicator-free text `benign note`, and the promotion still clears every
text field — the remainder is discarded without being reported. -/
theorem c4_promotion_discards_residual_witness :
    0 < (filterLogScriptLines discardResult.stdout).length ∧
    filterStep discardResult =
      { discardResult with
        success := true
        code := 0
        output := []
        stdout := []
        stderr := []
        filtered := true } :=
  ⟨by decide, c4_promotion_discards_residual discardResult (by decide) (by decide)
    (by decide) (by decide)⟩

/-- C5: RecurrenceDetector returns `false` when the history directory is
absent (and, by construction of the model, whenever a read fails); when the
up-to-3 most-recently-modified prior reports are readable, it returns
`true` exactly when the current run has a real failure and one of those
reports contains the error-status marker together with a current failure's
literal description and the literal `FALHOU` marker (the renderer's
Portuguese spelling of the `FAILED` marker). -/
theorem c5_recurrence_characterization (results : List CheckResult) (files : List LogFile) :
    checkIfErrorIsRecurrent results none = false ∧
    ((∀ f ∈ recentThree files, f.content ≠ none) →
      (checkIfErrorIsRecurrent results (some files) = true ↔
        ∃ f ∈ recentThree files, ∃ c, f.content = some c ∧
          (∃ r ∈ results, r.success = false ∧ r.skipped = false) ∧
          containsL c (str "❌ Status: ERRO") = true ∧
          ∃ r ∈ results, r.success = false ∧ r.skipped = false ∧
            containsL c r.description = true ∧ containsL c (str "FALHOU") = true)) := by
  refine ⟨rfl, fun hread => ?_⟩
  show recurrenceLoop results (recentThree files) = true ↔ _
  rw [recurrenceLoop_iff results _ hread]
  constructor
  · rintro ⟨f, hf, c, hc, hrec⟩
    exact ⟨f, hf, c, hc, (recurrentInLog_iff results c).mp hrec⟩
  · rintro ⟨f, hf, c, hc, h⟩
    exact ⟨f, hf, c, hc, (recurrentInLog_iff results c).mpr h⟩

/-- C5 (witness): with one failing check and one readable recent report
containing the marker, the description and `FALHOU`, the detector fires. -/
theorem c5_recurrence_witness :
    checkIfErrorIsRecurrent [failedResult] (some [histLog]) = true :=
  ((c5_recurrence_characterization [failedResult] [histLog]).2 (by decide)).mpr
    ⟨histLog, by decide, histLogContent, rfl,
      ⟨failedResult, by decide, rfl, rfl⟩, by decide,
      failedResult, by decide, rfl, rfl, by decide, by decide⟩

/-- C6: end-to-end scenario 2 — the report rendered from a type-check that
exited 1 with stderr `src/app/page.tsx(10,5): error TS2304: Cannot find
name 'Foo'.` contains that line and the description `Verificação
TypeScript`, and the diagnostic extraction yields
`fileName = "src/app/page.tsx"`, `lineNumber = 10` and
`type = "TYPESCRIPT_ERROR"` (first pattern matching anywhere, first match
only), while the synthesized remediation command list contains
`npx tsc --noEmit` exactly once. -/
theorem c6_scenario2_extraction :
    containsL scenario2Log ts2304Line = true ∧
    containsL scenario2Log (str "Verificação TypeScript") = true ∧
    scenario2Details.fileName = str "src/app/page.tsx" ∧
    scenario2Details.lineNumber = some 10 ∧
    scenario2Details.errType = str "TYPESCRIPT_ERROR" ∧
    (generateSpecificCommandsFromFailedTests scenario2Details.failedTests
        scenario2Details).count (str "npx tsc --noEmit") = 1 := by decide

/-- C7: every CheckResult produced by either branch of CommandExecutor
satisfies the invariant `skipped ⇒ ¬success` and `filtered ⇒ ¬skipped`,
and NoiseFilter preserves the invariant elementwise. -/
theorem c7_result_invariants :
    (∀ cmd args dsc code o e ts, resultInv (runCommandClose cmd args dsc code o e ts)) ∧
    (∀ cmd args dsc msg ts, resultInv (runCommandError cmd args dsc msg ts)) ∧
    (∀ rs : List CheckResult, (∀ r ∈ rs, resultInv r) →
      ∀ x ∈ filterLogScriptErrors rs, resultInv x) := by
  refine ⟨?_, ?_, ?_⟩
  · intro cmd args dsc code o e ts
    exact ⟨fun h => by simp [runCommandClose] at h, fun _ => rfl⟩
  · intro cmd args dsc msg ts
    exact ⟨fun _ => rfl, fun h => by simp [runCommandError] at h⟩
  · intro rs hinv x hx
    rw [filterLogScriptErrors, List.mem_map] at hx
    obtain ⟨r, hr, rfl⟩ := hx
    have hir := hinv r hr
    by_cases h1 : (r.skipped || r.success) = true
    · rw [filterStep_of_pass h1]
      exact hir
    · rw [Bool.not_eq_true] at h1
      obtain ⟨hks, hsu⟩ := Bool.or_eq_false_iff.mp h1
      by_cases h2 : hasLogScriptError r = true
      · by_cases h3 : checkForRemainingErrors (filterLogScriptLines r.output)
          (filterLogScriptLines r.stdout) (filterLogScriptLines r.stderr) = true
        · rw [filterStep_of_residual h1 h2 h3]
          exact ⟨fun _ => hsu, fun _ => hks⟩
        · rw [Bool.not_eq_true] at h3
          rw [filterStep_of_promoted h1 h2 h3]
          exact ⟨fun h => absurd h (by simp [hks]), fun _ => hks⟩
      · rw [Bool.not_eq_true] at h2
        rw [filterStep_of_no_script h1 h2]
        exact hir

/-- C7 (witness): the invariant holds of a concrete spawn-error result, a
concrete completed-process result, and a concrete NoiseFilter output. -/
theorem c7_result_invariants_witness :
    resultInv (runCommandClose (str "npx") [str "tsc"] (str "d") 1 (str "x") [] (str "t")) ∧
    resultInv (runCommandError (str "npx") [str "tsc"] (str "d") (str "spawn ENOENT") (str "t")) ∧
    resultInv (filterStep discardResult) := by
  have hbase : ∀ r ∈ [discardResult], resultInv r := by
    intro r hr
    rw [List.mem_singleton] at hr
    subst hr
    constructor
    · intro h
      simp [discardResult] at h
    · intro h
      simp [discardResult] at h
  refine ⟨c7_result_invariants.1 _ _ _ _ _ _ _, c7_result_invariants.2.1 _ _ _ _ _, ?_⟩
  exact c7_result_invariants.2.2 [discardResult] hbase (filterStep discardResult)
    (by simp [filterLogScriptErrors])

/-- C8: NoiseFilter is idempotent — filtering an already-filtered result
list yields the identical list. -/
theorem c8_noise_filter_idempotent (rs : List CheckResult) :
    filterLogScriptErrors (filterLogScriptErrors rs) = filterLogScriptErrors rs := by
  simp only [filterLogScriptErrors, List.map_map]
  exact List.map_congr_left fun r _ => filterStep_idem r

/-- C9: the report's overall status is success exactly when every result in
the sequence has `success = true` or `skipped = true`. -/
theorem c9_overall_success_iff (rs : List CheckResult) :
    overallSuccess rs = true ↔ ∀ r ∈ rs, r.success = true ∨ r.skipped = true := by
  simp [overallSuccess, List.all_eq_true, Bool.or_eq_true]

/-- C9 (witness): the equivalence applied to a concrete singleton battery. -/
theorem c9_overall_success_witness : overallSuccess [okResult] = true :=
  (c9_overall_success_iff [okResult]).mpr (by decide)

/-- C10 (counterexample): the `output` field is NOT the concatenation of
the `stdout` and `stderr` fields in general — with raw streams `"a "` and
`"b"` the output is `a b` while the concatenation of the trimmed fields is
`ab`. -/
theorem c10_output_concat_counterexample :
    (runCommandClose (str "npx") [] (str "d") 1 (str "a ") (str "b") (str "t")).output ≠
      (runCommandClose (str "npx") [] (str "d") 1 (str "a ") (str "b") (str "t")).stdout ++
      (runCommandClose (str "npx") [] (str "d") 1 (str "a ") (str "b") (str "t")).stderr := by
  decide

/-- C10 (amended): whenever neither raw stream carries leading or trailing
whitespace, the `output` field equals the concatenation of the `stdout`
and `stderr` fields (the fields being trimmed copies of the raw streams,
and `output` the trim of their concatenation). -/
theorem c10_output_concat_trimmed (cmd : Str) (args : List Str) (dsc : Str) (code : Int)
    (o e ts : Str) (ho : trimL o = o) (he : trimL e = e) :
    (runCommandClose cmd args dsc code o e ts).output =
      (runCommandClose cmd args dsc code o e ts).stdout ++
        (runCommandClose cmd args dsc code o e ts).stderr := by
  show trimL (o ++ e) = trimL o ++ trimL e
  rw [ho, he, trimL_append_of_fixed ho he]

/-- C10 (witness): the amended statement at the whitespace-free raw streams
`a` and `b`. -/
theorem c10_output_concat_witness :
    (runCommandClose (str "npx") [] (str "d") 1 (str "a") (str "b") (str "t")).output =
      (runCommandClose (str "npx") [] (str "d") 1 (str "a") (str "b") (str "t")).stdout ++
        (runCommandClose (str "npx") [] (str "d") 1 (str "a") (str "b") (str "t")).stderr :=
  c10_output_concat_trimmed (str "npx") [] (str "d") 1 (str "a") (str "b") (str "t")
    (by decide) (by decide)
